import Mathlib

/-!
Shallow embedding of the Clawless intelligence-routing core
(ComplexityAnalyzer, QualityValidator, IntelligenceRouter, cost ledger),
translated from the TypeScript code blocks in the repository's router
specification and implementation-plan documents, plus the SQLite schema.

Machine integers are modelled as Nat (all score/token arithmetic in the
source is small nonnegative integer arithmetic); USD costs, which are JS
floats / SQL REAL, are modelled as exact rationals.  JS strings are
modelled as Lean strings; `.length` counts code points rather than UTF-16
units and `.toLowerCase` is modelled on the ASCII range — every input used
in the development is ASCII, where the two agree.
-/

/-- JS whitespace class `\s` (the set used by the URL regex `[^\s]+`). -/
def isJsSpace (c : Char) : Bool :=
  let n := c.toNat
  decide (n = 32 ∨ (9 ≤ n ∧ n ≤ 13) ∨ n = 0xa0 ∨ n = 0x1680 ∨
    (0x2000 ≤ n ∧ n ≤ 0x200a) ∨ n = 0x2028 ∨ n = 0x2029 ∨ n = 0x202f ∨
    n = 0x205f ∨ n = 0x3000 ∨ n = 0xfeff)

/-- JS line terminators, which the regex `.` (no `s` flag) does not match. -/
def isLineTerm (c : Char) : Bool :=
  let n := c.toNat
  decide (n = 10 ∨ n = 13 ∨ n = 0x2028 ∨ n = 0x2029)

/-- JS word-class `\w` = `[A-Za-z0-9_]`, used for `\b` boundaries. -/
def isWordChar (c : Char) : Bool :=
  c.isAlpha || c.isDigit || c == '_'

/-- ASCII model of JS `String.prototype.toLowerCase`. -/
def lowerStr (s : String) : String :=
  String.mk (s.toList.map Char.toLower)

/-- Test whether `w` is an initial segment of `cs` (character-exact). -/
def startsWithChars : List Char → List Char → Bool
  | [], _ => true
  | _ :: _, [] => false
  | w :: ws, c :: cs => (w == c) && startsWithChars ws cs

/-- JS `String.prototype.includes` (substring containment). -/
def containsSub (s pat : String) : Bool :=
  (List.range (s.toList.length + 1)).any
    (fun i => startsWithChars pat.toList (s.toList.drop i))

/-- One attempt of `\bW\b` at position `i` of `cs` (already lowercased):
the word `w` occurs at `i` with non-word characters (or the ends of the
string) on both sides. -/
def wordAt (cs : List Char) (w : List Char) (i : Nat) : Bool :=
  startsWithChars w (cs.drop i) &&
  (decide (i = 0) || !isWordChar (cs.getD (i - 1) ' ')) &&
  !isWordChar (cs.getD (i + w.length) ' ')

/-- Case-insensitive whole-word search, the semantics of `/\bW\b/i.test` for
an all-letter ASCII word `W`. -/
def hasWord (s : String) (w : String) : Bool :=
  let cs := (lowerStr s).toList
  (List.range cs.length).any (fun i => wordAt cs w.toList i)

/-- Split into maximal line-terminator-free stretches. -/
def splitOnLineTerms (cs : List Char) : List (List Char) :=
  cs.foldr
    (fun c acc =>
      if isLineTerm c then [] :: acc
      else
        match acc with
        | [] => [[c]]
        | l :: ls => (c :: l) :: ls)
    [[]]

/-- The test `/\?.*\?/.test`: two question marks with no line terminator between
them (the dot of the pattern does not cross line terminators). -/
def hasDoubleQuestion (s : String) : Bool :=
  (splitOnLineTerms s.toList).any
    (fun line => decide (2 ≤ (line.filter (fun c => c == '?')).length))

/-- Model of `ComplexityAnalyzer.detectAmbiguity`: hedging words, a repeated
question mark, or a disjunction marker. -/
def detectAmbiguity (prompt : String) : Bool :=
  (["maybe", "might", "could", "should", "probably"].any (fun w => hasWord prompt w)) ||
  hasDoubleQuestion prompt ||
  (["or", "either"].any (fun w => hasWord prompt w))

inductive TaskType where
  | extraction
  | classification
  | planning
  | code_review
  | security_analysis
  | workflow_compilation
  | error_recovery
deriving DecidableEq, Repr

/-- The `AgentTask` record from `shared/types.ts`; optional fields become `Option`,
optional booleans become `Bool` (absent = false, matching JS truthiness).
`tools` is `unknown[]` in the source and only its length is ever read, so
tool handles are modelled as strings. -/
structure AgentTask where
  type : TaskType
  prompt : String
  context : Option String
  tools : Option (List String)
  expectsJSON : Bool
  requiredFields : Option (List String)
  minLength : Option Nat
  isRetry : Bool
deriving DecidableEq, Repr

inductive ModelKind where
  | ollama
  | claude
deriving DecidableEq, Repr

/-- The `AgentResponse` record from `shared/types.ts`. -/
structure AgentResponse where
  content : String
  modelUsed : ModelKind
  tokensInput : Nat
  tokensOutput : Nat
  cost : ℚ
deriving DecidableEq, Repr

inductive RecommendedModel where
  | none
  | ollama
  | claude
deriving DecidableEq, Repr

structure ComplexityFactors where
  taskType : Nat
  contextSize : Nat
  ambiguity : Nat
  reasoning : Nat
  toolCount : Nat
deriving DecidableEq, Repr

structure ComplexityScore where
  score : Nat
  reasoning : String
  factors : ComplexityFactors
  recommendedModel : RecommendedModel
deriving DecidableEq, Repr

/-- The `typeScores` lookup table.  The table is exhaustive over the task
kinds, so the JS `|| 3` default is unreachable. -/
def typeScore : TaskType → Nat
  | TaskType.extraction => 2
  | TaskType.classification => 1
  | TaskType.planning => 4
  | TaskType.code_review => 8
  | TaskType.security_analysis => 9
  | TaskType.workflow_compilation => 7
  | TaskType.error_recovery => 5

/-- The context-size if-chain of `analyze` as a function of the length. -/
def contextBucket (n : Nat) : Nat :=
  if n > 10000 then 3 else if n > 5000 then 2 else if n > 2000 then 1 else 0

/-- Context factor: absent context contributes 0. -/
def contextScore : Option String → Nat
  | some c => contextBucket c.length
  | none => 0

def ambiguityScore (prompt : String) : Nat :=
  if detectAmbiguity prompt then 2 else 0

def reasoningScore (t : TaskType) : Nat :=
  if t = TaskType.planning ∨ t = TaskType.error_recovery then 3 else 0

def toolScore (tools : Option (List String)) : Nat :=
  if (tools.getD []).length > 3 then 1 else 0

def retryScore (b : Bool) : Nat :=
  if b then 2 else 0

/-- The running `score` accumulator of `analyze`, written as the sum of its
per-factor contributions in source order (type, context, ambiguity,
reasoning, tools, retry). -/
def totalScore (t : AgentTask) : Nat :=
  typeScore t.type + contextScore t.context + ambiguityScore t.prompt +
    reasoningScore t.type + toolScore t.tools + retryScore t.isRetry

/-- The `factors` record of `analyze`; the retry bonus enters the score but
is not recorded as a factor, exactly as in the source. -/
def factorsOf (t : AgentTask) : ComplexityFactors :=
  { taskType := typeScore t.type
    contextSize := contextScore t.context
    ambiguity := ambiguityScore t.prompt
    reasoning := reasoningScore t.type
    toolCount := toolScore t.tools }

/-- Model of `ComplexityAnalyzer.getRecommendedModel`. -/
def getRecommendedModel (score : Nat) : RecommendedModel :=
  if score < 2 then RecommendedModel.none
  else if score < 7 then RecommendedModel.ollama
  else RecommendedModel.claude

/-- Model of `ComplexityAnalyzer.explainScore`. -/
def explainScore (score : Nat) (factors : ComplexityFactors) : String :=
  let ft := factors.taskType
  let fc := factors.contextSize
  let parts : List String :=
    (if ft > 5 then ["complex task type (" ++ toString ft ++ ")"] else []) ++
    (if fc > 0 then ["large context (" ++ toString fc ++ ")"] else []) ++
    (if factors.ambiguity > 0 then ["ambiguous prompt"] else []) ++
    (if factors.reasoning > 0 then ["requires reasoning"] else [])
  if parts.isEmpty then "Simple task (score: " ++ toString score ++ ")"
  else "Score " ++ toString score ++ ": " ++ String.intercalate ", " parts

/-- Model of `ComplexityAnalyzer.analyze`. -/
def analyze (t : AgentTask) : ComplexityScore :=
  { score := totalScore t
    reasoning := explainScore (totalScore t) (factorsOf t)
    factors := factorsOf t
    recommendedModel := getRecommendedModel (totalScore t) }

/-- A task carrying only a kind and a prompt, every optional field absent
(in JS: no `context`, `tools`, `expectsJSON`, `requiredFields`,
`minLength` or `isRetry` property). -/
def plainTask (k : TaskType) (p : String) : AgentTask :=
  { type := k, prompt := p, context := none, tools := none,
    expectsJSON := false, requiredFields := none, minLength := none,
    isRetry := false }

/-! Section: QualityValidator (`src/intelligence/quality.ts`) -/

/-- The run of non-`\s` characters headed by `cs`, i.e. what the greedy
`[^\s]+` consumes. -/
def nonSpaceRun (cs : List Char) : List Char :=
  cs.takeWhile (fun c => !isJsSpace c)

/-- One attempt of `https?:\/\/[^\s]+` anchored at the head of `cs`;
returns the matched characters and the remainder after the match. -/
def urlMatchAt (cs : List Char) : Option (List Char × List Char) :=
  if startsWithChars "https://".toList cs then
    let rest := cs.drop 8
    let run := nonSpaceRun rest
    if 0 < run.length then some ("https://".toList ++ run, rest.drop run.length)
    else none
  else if startsWithChars "http://".toList cs then
    let rest := cs.drop 7
    let run := nonSpaceRun rest
    if 0 < run.length then some ("http://".toList ++ run, rest.drop run.length)
    else none
  else none

/-- Global scan of `/https?:\/\/[^\s]+/g`: advance one character on
failure, continue after the consumed text on success.  Each step consumes
at least one character, so fuel equal to the string length never runs out. -/
def urlMatchesAux : Nat → List Char → List String
  | 0, _ => []
  | _, [] => []
  | Nat.succ fuel, c :: rest =>
    match urlMatchAt (c :: rest) with
    | some (m, after) => String.mk m :: urlMatchesAux fuel after
    | none => urlMatchesAux fuel rest

def urlMatches (text : String) : List String :=
  urlMatchesAux text.toList.length text.toList

/-- Global scan of `/\b[A-Z][a-z]+\b/g`.  A match needs: a `\b` before the
uppercase letter (tracked through `prev`, the character just before the
scan position), at least one following lowercase letter (greedy — the
pattern cannot backtrack to a shorter run, because any shorter cut is
followed by a word character), and a `\b` after the run. -/
def capMatchesAux : Nat → Option Char → List Char → List String
  | 0, _, _ => []
  | _, _, [] => []
  | Nat.succ fuel, prev, c :: rest =>
    let prevOk := match prev with
      | some p => !isWordChar p
      | none => true
    if c.isUpper && prevOk then
      let run := rest.takeWhile (fun d => d.isLower)
      let after := rest.drop run.length
      if decide (0 < run.length) && !isWordChar (after.headD ' ') then
        String.mk (c :: run) :: capMatchesAux fuel (some (run.getLastD c)) after
      else
        capMatchesAux fuel (some c) rest
    else
      capMatchesAux fuel (some c) rest

def capMatches (text : String) : List String :=
  capMatchesAux text.toList.length none text.toList

/-- Model of `[...new Set(entities)]`: keep the first occurrence of each element. -/
def dedupAux : List String → List String → List String
  | _, [] => []
  | seen, x :: xs =>
    if seen.contains x then dedupAux seen xs
    else x :: dedupAux (x :: seen) xs

def dedupStr (l : List String) : List String := dedupAux [] l

/-- Model of `QualityValidator.extractEntities`: URL matches, then capitalized-word
matches, deduplicated. -/
def extractEntities (text : String) : List String :=
  dedupStr (urlMatches text ++ capMatches text)

/-- The response entities that do not occur among the context entities
(the `hallucinated` list of `detectHallucination`). -/
def unmatchedEntities (content ctx : String) : List String :=
  (extractEntities content).filter (fun e => !((extractEntities ctx).contains e))

/-- The placeholder-marker screen of `detectHallucination`: the lowercased
content contains one of "todo", "fixme", "example.com", "placeholder". -/
def placeholderFlag (content : String) : Bool :=
  let c := lowerStr content
  (containsSub c "todo" || containsSub c "fixme") ||
  (containsSub c "example.com" || containsSub c "placeholder")

/-- Model of `QualityValidator.detectHallucination`.  The source compares
`hallucinated.length > responseEntities.length * 0.5` in JS floats; for
list lengths below 2^53 that float comparison is exact, and over the
integers `h > n / 2` is `2 * h > n`. -/
def detectHallucination (response : AgentResponse) (task : AgentTask) : Bool :=
  let content := lowerStr response.content
  if containsSub content "todo" || containsSub content "fixme" then true
  else if containsSub content "example.com" || containsSub content "placeholder" then true
  else
    match task.context with
    | some ctx =>
      decide (2 * (unmatchedEntities response.content ctx).length >
        (extractEntities response.content).length)
    | none => false

/-- JSON values as produced by `JSON.parse`. -/
inductive JsVal where
  | jsNull
  | jsBool (b : Bool)
  | jsNum (q : ℚ)
  | jsStr (s : String)
  | jsArr (elems : List JsVal)
  | jsObj (fields : List (String × JsVal))

/-- The JS `field in parsed` test: `some b` when `parsed` is an object or
array (own properties: named fields, canonical array indices, `length`),
`none` when `parsed` is a primitive, where `in` throws a TypeError.
Properties inherited from the prototype chain are not modelled; required
field names are assumed not to collide with prototype method names. -/
def jsHasProp : JsVal → String → Option Bool
  | JsVal.jsObj fields, f => some (fields.any (fun p => p.1 == f))
  | JsVal.jsArr elems, f =>
    some ((f == "length") ||
      (match f.toNat? with
       | some i => decide (i < elems.length) && (toString i == f)
       | none => false))
  | _, _ => none

/-- The check `requiredFields.every(field => field in parsed)` inside the `try`:
a missing field yields `false`, and a TypeError from `in` on a primitive
is caught by the surrounding `catch`, which also yields `false` — so both
are `false` here. -/
def jsHasPropB (parsed : JsVal) (f : String) : Bool :=
  (jsHasProp parsed f).getD false

/-- The `expectsJSON` block of `validate`: `JSON.parse` must succeed
(`none` models a thrown parse error) and, when `requiredFields` is given,
every field must be present.  `JSON.parse` itself is a host primitive and
is passed in as a function. -/
def structuredCheckPasses (jsonParse : String → Option JsVal) (content : String)
    (requiredFields : Option (List String)) : Bool :=
  match jsonParse content with
  | none => false
  | some parsed =>
    match requiredFields with
    | some fields => fields.all (fun f => jsHasPropB parsed f)
    | none => true

/-- The `minLength` check of `validate`; JS `0` is falsy, so a `minLength`
of zero disables the check. -/
def lengthCheckFails (response : AgentResponse) (task : AgentTask) : Bool :=
  match task.minLength with
  | some m => decide (0 < m) && decide (response.content.length < m)
  | none => false

/-- Model of `QualityValidator.validate`. -/
def validate (jsonParse : String → Option JsVal) (response : AgentResponse)
    (task : AgentTask) : Bool :=
  if task.expectsJSON &&
      !(structuredCheckPasses jsonParse response.content task.requiredFields) then false
  else if lengthCheckFails response task then false
  else if detectHallucination response task then false
  else true

/-! Section: IntelligenceRouter (`src/intelligence/router.ts`, plus the
execution-flow variant of the router specification document)

The two backends are asynchronous collaborators; a single `execute` call
invokes `ollama.isAvailable` at most once, `ollama.execute` at most once
and (in the plan variant) `claude.execute` at most once, so each backend
is modelled by the outcome it would produce on that call, and the router
additionally returns the list of backend invocations it performed.
`Except.error` models a thrown exception. -/

structure RouterConfig where
  ollamaFallback : Bool
  ollamaTimeout : Nat
  maxCostPerExecution : ℚ
deriving DecidableEq, Repr

inductive BackendEvent where
  | ollamaProbe
  | ollamaExecute
  | claudeExecute
deriving DecidableEq, Repr

/-- Model of `IntelligenceRouter.executeWithOllama`: probe, throw
`Ollama not available` on a false probe, otherwise execute (whose own
outcome, success or thrown error, is returned unchanged). -/
def executeWithOllama (oAvail : Bool) (oExec : Except String AgentResponse) :
    Except String AgentResponse × List BackendEvent :=
  if !oAvail then (Except.error "Ollama not available", [BackendEvent.ollamaProbe])
  else (oExec, [BackendEvent.ollamaProbe, BackendEvent.ollamaExecute])

/-- Model of `IntelligenceRouter.execute` from the implementation plan
(`src/intelligence/router.ts`): score < 2 rejected; score < 6 Ollama only
(its result or error returned as is); score < 8 Ollama attempt with
quality gate and Claude fallback when `ollamaFallback` is set; otherwise
Claude only. -/
def routerExecute (jsonParse : String → Option JsVal) (config : RouterConfig)
    (oAvail : Bool) (oExec cExec : Except String AgentResponse)
    (task : AgentTask) : Except String AgentResponse × List BackendEvent :=
  let score := analyze task
  if score.score < 2 then
    (Except.error "Deterministic tasks should not use LLM router", [])
  else if score.score < 6 then
    executeWithOllama oAvail oExec
  else if score.score < 8 then
    if config.ollamaFallback then
      match executeWithOllama oAvail oExec with
      | (Except.ok result, evs) =>
        if validate jsonParse result task then (Except.ok result, evs)
        else (cExec, evs ++ [BackendEvent.claudeExecute])
      | (Except.error _, evs) => (cExec, evs ++ [BackendEvent.claudeExecute])
    else (cExec, [BackendEvent.claudeExecute])
  else (cExec, [BackendEvent.claudeExecute])

/-- The `execute` code-flow variant of the router specification document.
`model = none` rejects; when `model = ollama` or the score is below 8 and
fallback is enabled, the `try` block probes (a false probe returns the
result of a Claude call made inside the `try`), executes Ollama, gates a
success through the validator, and any thrown error falls through to the
final Claude call; otherwise the final Claude call runs directly.  Claude
may thus be called twice, so its two call sites get separate outcomes
(`cTry`, `cFinal`). -/
def routeFlow (jsonParse : String → Option JsVal) (config : RouterConfig)
    (oAvail : Bool) (oExec cTry cFinal : Except String AgentResponse)
    (task : AgentTask) : Except String AgentResponse × List BackendEvent :=
  let score := analyze task
  if score.recommendedModel = RecommendedModel.none then
    (Except.error "Task is deterministic, should not use LLM router", [])
  else if (score.recommendedModel = RecommendedModel.ollama ∨ score.score < 8) ∧
      config.ollamaFallback then
    if !oAvail then
      match cTry with
      | Except.ok r => (Except.ok r, [BackendEvent.ollamaProbe, BackendEvent.claudeExecute])
      | Except.error _ =>
        (cFinal, [BackendEvent.ollamaProbe, BackendEvent.claudeExecute,
          BackendEvent.claudeExecute])
    else
      match oExec with
      | Except.ok r =>
        if validate jsonParse r task then
          (Except.ok r, [BackendEvent.ollamaProbe, BackendEvent.ollamaExecute])
        else
          (cFinal, [BackendEvent.ollamaProbe, BackendEvent.ollamaExecute,
            BackendEvent.claudeExecute])
      | Except.error _ =>
        (cFinal, [BackendEvent.ollamaProbe, BackendEvent.ollamaExecute,
          BackendEvent.claudeExecute])
  else (cFinal, [BackendEvent.claudeExecute])

/-! Section: cost ledger (`StateManager.recordCost` and the `cost_tracking`
table of `data/schema.sql`)

The table is modelled as a list of rows; `UNIQUE(date, model)` makes the
upsert's conflict target the first (and only) row with the key.  `cost` is
SQL REAL, modelled as an exact rational.  The current date is supplied by
the clock and enters the model as a parameter. -/

structure CostRecord where
  date : String
  model : String
  tokens_input : Nat
  tokens_output : Nat
  cost : ℚ
  execution_count : Nat
deriving DecidableEq, Repr

def costKeyMatch (today model : String) (r : CostRecord) : Bool :=
  (r.date == today) && (r.model == model)

/-- The `SELECT` of the row with key `(today, model)`. -/
def lookupCost (today model : String) (db : List CostRecord) : Option CostRecord :=
  db.find? (costKeyMatch today model)

/-- The `DO UPDATE SET` arm of the upsert, applied to the conflicting
row: each cumulative field gets the delta added and `execution_count`
gets one added. -/
def bumpCost (tIn tOut : Nat) (cost : ℚ) (r : CostRecord) : CostRecord :=
  { r with tokens_input := r.tokens_input + tIn,
           tokens_output := r.tokens_output + tOut,
           cost := r.cost + cost,
           execution_count := r.execution_count + 1 }

/-- Model of `StateManager.recordCost`: `INSERT ... VALUES (..., 1) ON
CONFLICT(date, model) DO UPDATE SET` the cumulative fields additively. -/
def recordCost (today model : String) (tIn tOut : Nat) (cost : ℚ)
    (db : List CostRecord) : List CostRecord :=
  if db.any (costKeyMatch today model) then
    db.map (fun r =>
      if costKeyMatch today model r then bumpCost tIn tOut cost r else r)
  else db ++ [{ date := today, model := model, tokens_input := tIn,
                tokens_output := tOut, cost := cost, execution_count := 1 }]

/-- A sequence of `recordCost` calls applied in order. -/
def applyAll (today model : String) (ds : List (Nat × Nat × ℚ))
    (db : List CostRecord) : List CostRecord :=
  ds.foldl (fun acc d => recordCost today model d.1 d.2.1 d.2.2 acc) db

def sumIn (ds : List (Nat × Nat × ℚ)) : Nat := (ds.map (fun d => d.1)).sum

def sumOut (ds : List (Nat × Nat × ℚ)) : Nat := (ds.map (fun d => d.2.1)).sum

def sumCost (ds : List (Nat × Nat × ℚ)) : ℚ := (ds.map (fun d => d.2.2)).sum

/-- Pointwise order on ledger rows with the same key: no field decreased. -/
def costRecordLE (r s : CostRecord) : Prop :=
  r.date = s.date ∧ r.model = s.model ∧ r.tokens_input ≤ s.tokens_input ∧
    r.tokens_output ≤ s.tokens_output ∧ r.cost ≤ s.cost ∧
    r.execution_count ≤ s.execution_count

/-! Section: sample data used by the claim theorems and witnesses -/

/-- A workflow-compilation task: base score 7, no other contribution. -/
def wcTask : AgentTask := plainTask TaskType.workflow_compilation "Compile the workflow"

/-- An extraction task: base score 2, no other contribution. -/
def exTask : AgentTask := plainTask TaskType.extraction "Extract the repo name"

/-- A classification task: base score 1, no other contribution. -/
def clTask : AgentTask := plainTask TaskType.classification "Classify this message"

/-- A planning task: base score 4 plus the reasoning requirement. -/
def planTask : AgentTask := plainTask TaskType.planning "Plan the deployment"

def okOllamaResp : AgentResponse :=
  { content := "Workflow compiled", modelUsed := ModelKind.ollama,
    tokensInput := 10, tokensOutput := 20, cost := 0 }

def todoOllamaResp : AgentResponse :=
  { content := "TODO: finish this", modelUsed := ModelKind.ollama,
    tokensInput := 10, tokensOutput := 20, cost := 0 }

def okClaudeResp : AgentResponse :=
  { content := "Done by the remote backend", modelUsed := ModelKind.claude,
    tokensInput := 10, tokensOutput := 20, cost := 1/100 }

def noParse : String → Option JsVal := fun _ => none

def stdConfig : RouterConfig :=
  { ollamaFallback := true, ollamaTimeout := 5000, maxCostPerExecution := 1 }

/-- A code-review task: base score 8, no other contribution. -/
def crTask : AgentTask := plainTask TaskType.code_review "Review the changes"

/-- A security-analysis task: base score 9, no other contribution. -/
def secTask : AgentTask := plainTask TaskType.security_analysis "Audit the module"

/-- A context just past the 2000-character bucket boundary. -/
def longCtx : String := String.mk (List.replicate 2001 'a')

def ctxAlice : String := "Alice went home"

/-- Entities: Alice, Bob — one of two (50%) absent from `ctxAlice`. -/
def resp50 : AgentResponse :=
  { content := "Alice Bob", modelUsed := ModelKind.ollama,
    tokensInput := 1, tokensOutput := 1, cost := 0 }

/-- Entities: Alice, Bob, Carol — two of three (66%) absent from `ctxAlice`. -/
def resp66 : AgentResponse :=
  { content := "Alice Bob Carol", modelUsed := ModelKind.ollama,
    tokensInput := 1, tokensOutput := 1, cost := 0 }

def taskCtxAlice : AgentTask :=
  { plainTask TaskType.extraction "Summarize the note" with context := some ctxAlice }

def jsonTask : AgentTask :=
  { plainTask TaskType.extraction "Give structured data" with
      expectsJSON := true, requiredFields := some ["name"] }

def jsonResp : AgentResponse :=
  { content := "not valid", modelUsed := ModelKind.ollama,
    tokensInput := 1, tokensOutput := 1, cost := 0 }

/-- A `JSON.parse` oracle that parses anything to the empty object. -/
def parseEmptyObj : String → Option JsVal := fun _ => some (JsVal.jsObj [])

/-- Lowercase content: no URL and no capitalized word, hence no entities. -/
def respNoEntities : AgentResponse :=
  { content := "hello there", modelUsed := ModelKind.ollama,
    tokensInput := 1, tokensOutput := 1, cost := 0 }

def taskCtxUnrelated : AgentTask :=
  { plainTask TaskType.extraction "Say hi" with context := some "Unrelated Context" }

/-! Section: claim theorems -/

/-- Sanity check matching the spec's first end-to-end example: a plain
extraction task scores 2 (the prompt's URL triggers neither ambiguity
pattern). -/
theorem analyze_extraction_sample :
    (analyze (plainTask TaskType.extraction
      "Extract repo name from: https://github.com/user/repo")).score = 2 := by
  decide

/-- Sanity check matching the spec's third end-to-end example: base 4 +
ambiguity 2 (hedging "Should" and disjunction "or") + reasoning 3. -/
theorem analyze_planning_sample :
    (analyze (plainTask TaskType.planning
      "Should I refactor module A or module B?")).score = 9 := by
  decide

/-- Sanity check of the entity scanner: capitalized words. -/
theorem extractEntities_names_sample :
    extractEntities "Alice Bob" = ["Alice", "Bob"] := by decide

/-- Sanity check of the entity scanner: a URL plus a capitalized word. -/
theorem extractEntities_url_sample :
    extractEntities "see https://github.com/user/repo and Alice" =
      ["https://github.com/user/repo", "Alice"] := by
  decide

/-- Sanity check of the `\b[A-Z][a-z]+\b` boundaries: neither "McDonald"
nor "AliceX" produces a match. -/
theorem extractEntities_empty_sample :
    extractEntities "McDonald AliceX no caps" = [] := by decide

/-- C4: `getRecommendedModel` is a pure function of the total score with
thresholds: below 2 it is `none`, in `[2,7)` it is `ollama` (local), at 7
and above it is `claude` (remote); the boundary scores 1, 2, 6, 7, 8 map
to none, local, local, remote, remote; and `analyze` wires exactly this
function of its own total into the recommendation. -/
theorem c4_recommendation_thresholds :
    (∀ s : Nat,
      (getRecommendedModel s = RecommendedModel.none ↔ s < 2) ∧
      (getRecommendedModel s = RecommendedModel.ollama ↔ 2 ≤ s ∧ s < 7) ∧
      (getRecommendedModel s = RecommendedModel.claude ↔ 7 ≤ s)) ∧
    getRecommendedModel 1 = RecommendedModel.none ∧
    getRecommendedModel 2 = RecommendedModel.ollama ∧
    getRecommendedModel 6 = RecommendedModel.ollama ∧
    getRecommendedModel 7 = RecommendedModel.claude ∧
    getRecommendedModel 8 = RecommendedModel.claude ∧
    ∀ t : AgentTask, (analyze t).recommendedModel = getRecommendedModel (analyze t).score := by
  refine ⟨fun s => ?_, by decide, by decide, by decide, by decide, by decide,
    fun t => rfl⟩
  unfold getRecommendedModel
  split_ifs with h1 h2 <;> refine ⟨?_, ?_, ?_⟩ <;> simp <;> omega

/-- C8: a task whose analyzer score is below 2 makes both router variants
fail immediately with the caller-contract error, with zero backend
invocations (no probe, no execute on either backend). -/
theorem c8_rejected_without_backends (jsonParse : String → Option JsVal)
    (config : RouterConfig) (oAvail : Bool)
    (oExec cTry cFinal : Except String AgentResponse) (task : AgentTask)
    (h : (analyze task).score < 2) :
    routerExecute jsonParse config oAvail oExec cFinal task =
      (Except.error "Deterministic tasks should not use LLM router", []) ∧
    routeFlow jsonParse config oAvail oExec cTry cFinal task =
      (Except.error "Task is deterministic, should not use LLM router", []) := by
  have hrec : (analyze task).recommendedModel = RecommendedModel.none := by
    show getRecommendedModel (totalScore task) = RecommendedModel.none
    have h' : totalScore task < 2 := h
    unfold getRecommendedModel
    simp [h']
  constructor
  · unfold routerExecute
    simp [h]
  · unfold routeFlow
    simp [hrec]

/-- C8 witness: a concrete classification task scores 1, and both routers
reject it with no backend events. -/
theorem c8_witness :
    (analyze clTask).score < 2 ∧
    routerExecute noParse stdConfig true (Except.ok okOllamaResp)
        (Except.ok okClaudeResp) clTask =
      (Except.error "Deterministic tasks should not use LLM router", []) ∧
    routeFlow noParse stdConfig true (Except.ok okOllamaResp)
        (Except.ok okClaudeResp) (Except.ok okClaudeResp) clTask =
      (Except.error "Task is deterministic, should not use LLM router", []) := by
  refine ⟨by decide, ?_⟩
  exact c8_rejected_without_backends noParse stdConfig true (Except.ok okOllamaResp)
    (Except.ok okClaudeResp) (Except.ok okClaudeResp) clTask (by decide)

/-- C1 (code bug): a workflow-compilation task scores exactly 7 and is
recommended to the remote backend, yet with fallback enabled and a live
local backend both router variants probe AND execute Ollama — and even
return the local result — instead of transitioning directly to the remote
attempt.  The `score < 8` guard, not the recommendation, controls the
"try local first" band. -/
theorem c1_score_seven_invokes_local :
    (analyze wcTask).score = 7 ∧
    (analyze wcTask).recommendedModel = RecommendedModel.claude ∧
    routerExecute noParse stdConfig true (Except.ok okOllamaResp)
        (Except.ok okClaudeResp) wcTask =
      (Except.ok okOllamaResp, [BackendEvent.ollamaProbe, BackendEvent.ollamaExecute]) ∧
    routeFlow noParse stdConfig true (Except.ok okOllamaResp)
        (Except.ok okClaudeResp) (Except.ok okClaudeResp) wcTask =
      (Except.ok okOllamaResp, [BackendEvent.ollamaProbe, BackendEvent.ollamaExecute]) := by
  refine ⟨by decide, by decide, rfl, rfl⟩

/-- C2 (code bug): an extraction task scores 2, inside the claimed local
band `[2,7)`, yet the implementation-plan router gives it to Ollama with
no fallback and no quality gate: a thrown local error propagates to the
caller with zero Claude attempts, and a successful local result that the
validator would reject (placeholder content) is returned unvalidated.
The specification document's own flow variant does recover the same error
by falling back, with exactly one local and one remote execute. -/
theorem c2_simple_band_no_fallback :
    (analyze exTask).score = 2 ∧
    routerExecute noParse stdConfig true (Except.error "Ollama connection refused")
        (Except.ok okClaudeResp) exTask =
      (Except.error "Ollama connection refused",
        [BackendEvent.ollamaProbe, BackendEvent.ollamaExecute]) ∧
    validate noParse todoOllamaResp exTask = false ∧
    routerExecute noParse stdConfig true (Except.ok todoOllamaResp)
        (Except.ok okClaudeResp) exTask =
      (Except.ok todoOllamaResp,
        [BackendEvent.ollamaProbe, BackendEvent.ollamaExecute]) ∧
    routeFlow noParse stdConfig true (Except.error "Ollama connection refused")
        (Except.ok okClaudeResp) (Except.ok okClaudeResp) exTask =
      (Except.ok okClaudeResp,
        [BackendEvent.ollamaProbe, BackendEvent.ollamaExecute,
          BackendEvent.claudeExecute]) := by
  refine ⟨by decide, rfl, by decide, rfl, rfl⟩

/-- C3 counterexample: a planning task with no context, no ambiguity
markers, no tools and no retry totals 7 = base 4 + reasoning 3, not its
base score 4 as the claim states. -/
theorem c3_planning_not_base_score :
    planTask.context = none ∧ detectAmbiguity planTask.prompt = false ∧
    planTask.tools = none ∧ planTask.isRetry = false ∧
    typeScore TaskType.planning = 4 ∧
    (analyze planTask).score = 7 ∧ (analyze planTask).score ≠ 4 := by
  refine ⟨rfl, by decide, rfl, rfl, rfl, by decide, by decide⟩

/-- C3 (amended): for a task of fixed kind with absent context, a prompt
with no ambiguity markers, no declared tools and `isRetry` unset, the
analyzer total is the kind's base score plus the reasoning requirement:
exactly base + 3 for planning and error-recovery, and exactly the base
score for the other five kinds. -/
theorem c3_base_plus_reasoning (task : AgentTask)
    (hctx : task.context = none)
    (hamb : detectAmbiguity task.prompt = false)
    (htools : task.tools = none)
    (hretry : task.isRetry = false) :
    (analyze task).score = typeScore task.type +
      (if task.type = TaskType.planning ∨ task.type = TaskType.error_recovery
        then 3 else 0) := by
  show totalScore task = _
  unfold totalScore contextScore ambiguityScore reasoningScore toolScore retryScore
  rw [hctx, hamb, htools, hretry]
  simp

/-- C3 witness: the amended statement at a concrete code-review task. -/
theorem c3_witness :
    (crTask.context = none ∧ detectAmbiguity crTask.prompt = false ∧
      crTask.tools = none ∧ crTask.isRetry = false) ∧
    (analyze crTask).score = typeScore crTask.type +
      (if crTask.type = TaskType.planning ∨ crTask.type = TaskType.error_recovery
        then 3 else 0) :=
  ⟨⟨rfl, by decide, rfl, rfl⟩, c3_base_plus_reasoning crTask rfl (by decide) rfl rfl⟩

/-- The context-size bucket never decreases as the length grows. -/
theorem contextBucket_mono {m n : Nat} (h : m ≤ n) :
    contextBucket m ≤ contextBucket n := by
  unfold contextBucket
  split_ifs <;> omega

/-- C7: holding kind, prompt, tools and retry flag fixed, the analyzer
total is monotonically non-decreasing in the character length of the
context; the context contributes exactly the bucket value (+3 above
10000, +2 above 5000, +1 above 2000, else +0, highest bucket only) on top
of the no-context total, and that bucket is what the factors record
reports. -/
theorem c7_context_monotonicity (t : AgentTask) (c1 c2 : String)
    (h : c1.length ≤ c2.length) :
    (analyze { t with context := some c1 }).score ≤
      (analyze { t with context := some c2 }).score ∧
    (analyze { t with context := some c1 }).score =
      (analyze { t with context := none }).score + contextBucket c1.length ∧
    (analyze { t with context := some c1 }).factors.contextSize =
      contextBucket c1.length := by
  have hscore : ∀ o : Option String, (analyze { t with context := o }).score =
      typeScore t.type + contextScore o + ambiguityScore t.prompt +
        reasoningScore t.type + toolScore t.tools + retryScore t.isRetry :=
    fun o => rfl
  refine ⟨?_, ?_, rfl⟩
  · rw [hscore, hscore]
    have hb := contextBucket_mono h
    simp only [contextScore]
    omega
  · rw [hscore, hscore]
    simp only [contextScore]
    omega

theorem longCtx_length : longCtx.length = 2001 := by
  show (List.replicate 2001 'a').length = 2001
  exact List.length_replicate 2001 'a'

/-- C7 witness: a context of 2001 characters versus a short one, on a
security-analysis task. -/
theorem c7_witness :
    "short".length ≤ longCtx.length ∧
    ((analyze { secTask with context := some "short" }).score ≤
        (analyze { secTask with context := some longCtx }).score ∧
      (analyze { secTask with context := some "short" }).score =
        (analyze { secTask with context := none }).score +
          contextBucket "short".length ∧
      (analyze { secTask with context := some "short" }).factors.contextSize =
        contextBucket "short".length) :=
  ⟨by rw [longCtx_length]; decide,
   c7_context_monotonicity secTask "short" longCtx (by rw [longCtx_length]; decide)⟩

/-- C5: with context present and the placeholder screen passed, the
entity-overlap check of `detectHallucination` is governed by the strict
majority comparison: at exactly a 50% unmatched ratio it passes, at any
ratio above 50% it fails, and it fails only when the unmatched count
strictly exceeds half of the response's entity count. -/
theorem c5_entity_overlap_boundary (response : AgentResponse) (task : AgentTask)
    (ctx : String) (hctx : task.context = some ctx)
    (hph : placeholderFlag response.content = false) :
    (2 * (unmatchedEntities response.content ctx).length =
        (extractEntities response.content).length →
      detectHallucination response task = false) ∧
    (2 * (unmatchedEntities response.content ctx).length >
        (extractEntities response.content).length →
      detectHallucination response task = true) ∧
    (detectHallucination response task = true →
      2 * (unmatchedEntities response.content ctx).length >
        (extractEntities response.content).length) := by
  simp only [placeholderFlag, Bool.or_eq_false_iff] at hph
  obtain ⟨⟨h1, h2⟩, h3, h4⟩ := hph
  have hred : detectHallucination response task =
      decide (2 * (unmatchedEntities response.content ctx).length >
        (extractEntities response.content).length) := by
    unfold detectHallucination
    rw [hctx]
    simp [h1, h2, h3, h4]
  rw [hred]
  refine ⟨fun he => decide_eq_false (by omega), fun hgt => decide_eq_true hgt,
    fun hd => of_decide_eq_true hd⟩

/-- C5 witness: "Alice Bob" against a context containing only "Alice" is
exactly 50% unmatched and passes; "Alice Bob Carol" is 2/3 unmatched and
fails. -/
theorem c5_witness :
    (taskCtxAlice.context = some ctxAlice ∧
      placeholderFlag resp50.content = false ∧
      2 * (unmatchedEntities resp50.content ctxAlice).length =
        (extractEntities resp50.content).length) ∧
    detectHallucination resp50 taskCtxAlice = false ∧
    (placeholderFlag resp66.content = false ∧
      2 * (unmatchedEntities resp66.content ctxAlice).length >
        (extractEntities resp66.content).length) ∧
    detectHallucination resp66 taskCtxAlice = true :=
  ⟨⟨rfl, by decide, by decide⟩,
   (c5_entity_overlap_boundary resp50 taskCtxAlice ctxAlice rfl (by decide)).1
     (by decide),
   ⟨by decide, by decide⟩,
   (c5_entity_overlap_boundary resp66 taskCtxAlice ctxAlice rfl (by decide)).2.1
     (by decide)⟩

/-- C6: with structured output expected, `validate` returns false whenever
the content fails to parse, regardless of every other check; and when
`requiredFields` is given and some required field is missing from the
parsed value, `validate` returns false even though the content parsed. -/
theorem c6_structured_output_gate (jsonParse : String → Option JsVal)
    (response : AgentResponse) (task : AgentTask)
    (hexp : task.expectsJSON = true) :
    (jsonParse response.content = none →
      validate jsonParse response task = false) ∧
    (∀ parsed fields, jsonParse response.content = some parsed →
      task.requiredFields = some fields →
      fields.all (fun f => jsHasPropB parsed f) = false →
      validate jsonParse response task = false) := by
  constructor
  · intro hp
    have hs : structuredCheckPasses jsonParse response.content task.requiredFields = false := by
      unfold structuredCheckPasses
      rw [hp]
    unfold validate
    simp [hexp, hs]
  · intro parsed fields hp hrf hall
    have hs : structuredCheckPasses jsonParse response.content task.requiredFields = false := by
      unfold structuredCheckPasses
      rw [hp, hrf]
      exact hall
    unfold validate
    simp [hexp, hs]

/-- C6 witness: a parse failure, and a parsed empty object missing the
required field "name"; both make `validate` false. -/
theorem c6_witness :
    (jsonTask.expectsJSON = true ∧ noParse jsonResp.content = none) ∧
    validate noParse jsonResp jsonTask = false ∧
    (parseEmptyObj jsonResp.content = some (JsVal.jsObj []) ∧
      jsonTask.requiredFields = some ["name"] ∧
      (["name"].all (fun f => jsHasPropB (JsVal.jsObj []) f) = false)) ∧
    validate parseEmptyObj jsonResp jsonTask = false :=
  ⟨⟨rfl, rfl⟩,
   (c6_structured_output_gate noParse jsonResp jsonTask rfl).1 rfl,
   ⟨rfl, rfl, by decide⟩,
   (c6_structured_output_gate parseEmptyObj jsonResp jsonTask rfl).2
     (JsVal.jsObj []) ["name"] rfl rfl (by decide)⟩

/-- C10: when the response yields no entities at all, the entity-overlap
comparison `0 > 0` can never hold, so `detectHallucination` reduces to
the placeholder screen even with context present, and `validate` can fail
only through the structured-output check, the minimum-length check, or a
placeholder marker. -/
theorem c10_no_entities_no_overlap_failure (jsonParse : String → Option JsVal)
    (response : AgentResponse) (task : AgentTask)
    (h : extractEntities response.content = []) :
    detectHallucination response task = placeholderFlag response.content ∧
    (validate jsonParse response task = false ↔
      ((task.expectsJSON &&
          !(structuredCheckPasses jsonParse response.content task.requiredFields)) = true ∨
        lengthCheckFails response task = true ∨
        placeholderFlag response.content = true)) := by
  have hdet : detectHallucination response task = placeholderFlag response.content := by
    cases hc : task.context with
    | none =>
      cases h1 : containsSub (lowerStr response.content) "todo" <;>
      cases h2 : containsSub (lowerStr response.content) "fixme" <;>
      cases h3 : containsSub (lowerStr response.content) "example.com" <;>
      cases h4 : containsSub (lowerStr response.content) "placeholder" <;>
        simp [detectHallucination, placeholderFlag, hc, h1, h2, h3, h4]
    | some ctx =>
      cases h1 : containsSub (lowerStr response.content) "todo" <;>
      cases h2 : containsSub (lowerStr response.content) "fixme" <;>
      cases h3 : containsSub (lowerStr response.content) "example.com" <;>
      cases h4 : containsSub (lowerStr response.content) "placeholder" <;>
        simp [detectHallucination, placeholderFlag, unmatchedEntities, hc, h,
          h1, h2, h3, h4]
  refine ⟨hdet, ?_⟩
  unfold validate
  rw [hdet]
  cases hA : (task.expectsJSON &&
      !(structuredCheckPasses jsonParse response.content task.requiredFields)) <;>
  cases hB : lengthCheckFails response task <;>
  cases hC : placeholderFlag response.content <;> simp

/-- C10 witness: "hello there" yields no entities; with context present
the hallucination check reduces to the placeholder screen. -/
theorem c10_witness :
    extractEntities respNoEntities.content = [] ∧
    detectHallucination respNoEntities taskCtxUnrelated =
      placeholderFlag respNoEntities.content ∧
    (validate noParse respNoEntities taskCtxUnrelated = false ↔
      ((taskCtxUnrelated.expectsJSON &&
          !(structuredCheckPasses noParse respNoEntities.content
              taskCtxUnrelated.requiredFields)) = true ∨
        lengthCheckFails respNoEntities taskCtxUnrelated = true ∨
        placeholderFlag respNoEntities.content = true)) :=
  ⟨by decide,
   (c10_no_entities_no_overlap_failure noParse respNoEntities taskCtxUnrelated
     (by decide)).1,
   (c10_no_entities_no_overlap_failure noParse respNoEntities taskCtxUnrelated
     (by decide)).2⟩

/-! Section: cost-ledger lemmas for C9 -/

theorem find?_append_of_none {α} (p : α → Bool) (l₁ l₂ : List α)
    (h : l₁.find? p = none) : (l₁ ++ l₂).find? p = l₂.find? p := by
  induction l₁ with
  | nil => simp
  | cons a l ih =>
    by_cases hpa : p a = true
    · rw [List.find?_cons_of_pos _ hpa] at h
      exact absurd h (by simp)
    · have hpa' : ¬ p a = true := hpa
      rw [List.find?_cons_of_neg _ hpa'] at h
      rw [List.cons_append, List.find?_cons_of_neg _ hpa']
      exact ih h

/-- Push `find?` through a map that rewrites exactly the rows satisfying the
predicate, by a function that preserves the predicate. -/
theorem find?_map_update {α} (p : α → Bool) (f : α → α)
    (hf : ∀ x, p (f x) = p x) (l : List α) :
    (l.map (fun x => if p x then f x else x)).find? p = (l.find? p).map f := by
  induction l with
  | nil => simp
  | cons a l ih =>
    by_cases hpa : p a = true
    · have hfa : p (f a) = true := by rw [hf]; exact hpa
      simp only [List.map_cons, hpa, if_true]
      rw [List.find?_cons_of_pos _ hfa, List.find?_cons_of_pos _ hpa]
      rfl
    · have hpa' : p a = false := by simpa using hpa
      have hpa'' : ¬ p a = true := hpa
      simp only [List.map_cons, hpa', Bool.false_eq_true, if_false]
      rw [List.find?_cons_of_neg _ hpa'', List.find?_cons_of_neg _ hpa'']
      exact ih

theorem costKeyMatch_bump (today model : String) (tIn tOut : Nat) (cost : ℚ)
    (r : CostRecord) :
    costKeyMatch today model (bumpCost tIn tOut cost r) = costKeyMatch today model r := rfl

/-- Insert case of the upsert: no row for the key, so a fresh row with
the deltas and count 1 is appended and becomes the row for the key. -/
theorem lookupCost_recordCost_none (today model : String) (tIn tOut : Nat)
    (cost : ℚ) (db : List CostRecord)
    (h : lookupCost today model db = none) :
    lookupCost today model (recordCost today model tIn tOut cost db) =
      some { date := today, model := model, tokens_input := tIn,
             tokens_output := tOut, cost := cost, execution_count := 1 } := by
  have hany : db.any (costKeyMatch today model) = false := by
    rw [List.any_eq_false]
    intro r hr
    have := List.find?_eq_none.mp h r hr
    simpa using this
  unfold recordCost
  rw [hany]
  unfold lookupCost at h ⊢
  simp only [Bool.false_eq_true, if_false]
  rw [find?_append_of_none _ _ _ h]
  have hself : costKeyMatch today model
      { date := today, model := model, tokens_input := tIn,
        tokens_output := tOut, cost := cost, execution_count := 1 } = true := by
    simp [costKeyMatch]
  rw [List.find?_cons_of_pos _ hself]

/-- Update case of the upsert: the row for the key gets the deltas added
and its count incremented; it remains the row for the key. -/
theorem lookupCost_recordCost_some (today model : String) (tIn tOut : Nat)
    (cost : ℚ) (db : List CostRecord) (r : CostRecord)
    (h : lookupCost today model db = some r) :
    lookupCost today model (recordCost today model tIn tOut cost db) =
      some (bumpCost tIn tOut cost r) := by
  have hany : db.any (costKeyMatch today model) = true := by
    rw [List.any_eq_true]
    exact ⟨r, List.mem_of_find?_eq_some h, by
      simpa using List.find?_some h⟩
  unfold recordCost
  rw [hany]
  unfold lookupCost at h ⊢
  simp only [if_true]
  have : (db.map (fun x => if costKeyMatch today model x
      then bumpCost tIn tOut cost x else x)).find? (costKeyMatch today model) =
      (db.find? (costKeyMatch today model)).map (bumpCost tIn tOut cost) :=
    find?_map_update _ _ (costKeyMatch_bump today model tIn tOut cost) db
  rw [this, h]
  rfl

/-- Folding a sequence of upserts over an existing row accumulates the
pointwise sums of the deltas and adds the number of calls to the count. -/
theorem lookupCost_applyAll (today model : String) (ds : List (Nat × Nat × ℚ))
    (db : List CostRecord) (r : CostRecord)
    (h : lookupCost today model db = some r) :
    lookupCost today model (applyAll today model ds db) =
      some { r with tokens_input := r.tokens_input + sumIn ds,
                    tokens_output := r.tokens_output + sumOut ds,
                    cost := r.cost + sumCost ds,
                    execution_count := r.execution_count + ds.length } := by
  induction ds generalizing db r with
  | nil =>
    simpa [applyAll, sumIn, sumOut, sumCost] using h
  | cons d ds ih =>
    have h1 := lookupCost_recordCost_some today model d.1 d.2.1 d.2.2 db r h
    have h2 := ih (recordCost today model d.1 d.2.1 d.2.2 db) _ h1
    have hfold : applyAll today model (d :: ds) db =
        applyAll today model ds (recordCost today model d.1 d.2.1 d.2.2 db) := rfl
    rw [hfold, h2]
    simp only [bumpCost, sumIn, sumOut, sumCost, List.map_cons, List.sum_cons,
      List.length_cons, Option.some.injEq, CostRecord.mk.injEq]
    refine ⟨trivial, trivial, by omega, by omega, by ring, by omega⟩

/-- C9: the ledger's record operation is an additive upsert keyed by
(date, backend): with no row for the key it inserts the deltas with count
1; with a row present it adds the deltas and increments the count by
exactly one; no field of any row is overwritten or decreased (for a
nonnegative cost delta); and a sequence of N calls against one key,
starting from a ledger without that key, leaves the key's row holding the
pointwise sums of the N delta tuples with `execution_count = N`. -/
theorem c9_cost_ledger_upsert (today model : String) (tIn tOut : Nat)
    (cost : ℚ) (db : List CostRecord) :
    (lookupCost today model db = none →
      lookupCost today model (recordCost today model tIn tOut cost db) =
        some { date := today, model := model, tokens_input := tIn,
               tokens_output := tOut, cost := cost, execution_count := 1 }) ∧
    (∀ r, lookupCost today model db = some r →
      lookupCost today model (recordCost today model tIn tOut cost db) =
        some (bumpCost tIn tOut cost r)) ∧
    (0 ≤ cost →
      List.Forall₂ costRecordLE db
        ((recordCost today model tIn tOut cost db).take db.length)) ∧
    (∀ (d : Nat × Nat × ℚ) (ds : List (Nat × Nat × ℚ)),
      lookupCost today model db = none →
      lookupCost today model (applyAll today model (d :: ds) db) =
        some { date := today, model := model,
               tokens_input := sumIn (d :: ds),
               tokens_output := sumOut (d :: ds),
               cost := sumCost (d :: ds),
               execution_count := (d :: ds).length }) := by
  refine ⟨lookupCost_recordCost_none today model tIn tOut cost db,
    fun r h => lookupCost_recordCost_some today model tIn tOut cost db r h,
    ?_, ?_⟩
  · intro hc
    unfold recordCost
    by_cases hany : db.any (costKeyMatch today model) = true
    · rw [if_pos hany]
      have hlen : (db.map (fun r =>
          if costKeyMatch today model r then bumpCost tIn tOut cost r else r)).length =
          db.length := by simp
      rw [← hlen, List.take_length, List.forall₂_map_right_iff, List.forall₂_same]
      intro r hr
      by_cases hm : costKeyMatch today model r = true
      · rw [if_pos hm]
        exact ⟨rfl, rfl, Nat.le_add_right _ _, Nat.le_add_right _ _,
          le_add_of_nonneg_right hc, Nat.le_succ _⟩
      · rw [if_neg hm]
        exact ⟨rfl, rfl, le_refl _, le_refl _, le_refl _, le_refl _⟩
    · rw [if_neg hany, List.take_left, List.forall₂_same]
      intro x hx
      exact ⟨rfl, rfl, le_refl _, le_refl _, le_refl _, le_refl _⟩
  · intro d ds h
    have h1 := lookupCost_recordCost_none today model d.1 d.2.1 d.2.2 db h
    have h2 := lookupCost_applyAll today model ds _ _ h1
    have hfold : applyAll today model (d :: ds) db =
        applyAll today model ds (recordCost today model d.1 d.2.1 d.2.2 db) := rfl
    rw [hfold, h2]
    simp only [bumpCost, sumIn, sumOut, sumCost, List.map_cons, List.sum_cons,
      List.length_cons, Option.some.injEq, CostRecord.mk.injEq]
    and_intros <;> first
      | trivial
      | omega

/-- C9 witness: two recorded calls against the key ("2026-02-11",
"ollama") on an empty ledger leave one row holding the pointwise sums
with count 2. -/
theorem c9_witness :
    lookupCost "2026-02-11" "ollama" ([] : List CostRecord) = none ∧
    lookupCost "2026-02-11" "ollama"
        (applyAll "2026-02-11" "ollama"
          [(10, 20, (1 : ℚ)/2), (5, 5, (1 : ℚ)/4)] []) =
      some { date := "2026-02-11", model := "ollama",
             tokens_input := sumIn [(10, 20, (1 : ℚ)/2), (5, 5, (1 : ℚ)/4)],
             tokens_output := sumOut [(10, 20, (1 : ℚ)/2), (5, 5, (1 : ℚ)/4)],
             cost := sumCost [(10, 20, (1 : ℚ)/2), (5, 5, (1 : ℚ)/4)],
             execution_count :=
               ([(10, 20, (1 : ℚ)/2), (5, 5, (1 : ℚ)/4)] : List (Nat × Nat × ℚ)).length } :=
  ⟨rfl,
   (c9_cost_ledger_upsert "2026-02-11" "ollama" 0 0 0 []).2.2.2
     (10, 20, (1 : ℚ)/2) [(5, 5, (1 : ℚ)/4)] rfl⟩
